import Mathlib

/-!
Verification of the MSH3JS native bootstrap (src/src-tauri/src/msh3js_tauri_lib.rs).

The program is a thin Tauri entry point:

* `extract_file_args` reads `std::env::args()`, skips the executable path,
  and keeps exactly the arguments for which `Path::exists() && Path::is_file()`
  holds (both checks are wrappers around `std::fs::metadata`).
* The setup closure collects the files; if the list is non-empty it registers a
  persistent `listen("frontend-ready", ...)` handler that emits the event
  `"open-file"` with the captured list as payload, calling `.unwrap()` on the
  emit result (a failed emission panics and aborts the process).

We embed the program shallowly.  The filesystem is modelled as a pure
`metadata` oracle (`Except` models the fallible `std::fs::metadata` call:
an error value covers both a missing entry and an I/O failure such as
permission denied, exactly the cases in which Rust's `Path::exists` and
`Path::is_file` return `false`).  The event-loop phase is modelled as a trace
of observable actions produced from the start-up arguments and the sequence of
host events; each incoming event records the event name, whether the host emit
channel would succeed at that moment, and the filesystem state at that moment
(the last field is ignored by the handler, exactly as the Rust closure never
re-inspects the filesystem).
-/

namespace MSH3JS

/-- The kind of filesystem object reported by a successful metadata call:
a regular file, a directory, or a special file. -/
inductive FileKind
  | regular
  | directory
  | other
deriving DecidableEq, Repr

/-- The filesystem as seen by the program: a pure oracle for
`std::fs::metadata`.  `Except.error msg` models a failing metadata call
(entry missing, permission denied, ...). -/
structure FileSystem where
  metadata : String → Except String FileKind

/-- Rust `Path::exists`, which is `fs::metadata(path).is_ok()`. -/
def pathExists (fs : FileSystem) (p : String) : Bool :=
  match fs.metadata p with
  | Except.ok _ => true
  | Except.error _ => false

/-- Rust `Path::is_file`, which is
`fs::metadata(path).map(m => m.is_file()).unwrap_or(false)`. -/
def isFile (fs : FileSystem) (p : String) : Bool :=
  match fs.metadata p with
  | Except.ok FileKind.regular => true
  | Except.ok FileKind.directory => false
  | Except.ok FileKind.other => false
  | Except.error _ => false

/-- The launch-argument collector, from the source:
`std::env::args().skip(1).filter(|arg| path.exists() && path.is_file()).collect()`.
The raw argument vector (`std::env::args()`) is passed in as `argv`. -/
def extract_file_args (fs : FileSystem) (argv : List String) : List String :=
  (argv.drop 1).filter fun arg => pathExists fs arg && isFile fs arg

/-- Spec-side predicate, from the spec: "(1) a filesystem entry exists at
that path". -/
def entryExists (fs : FileSystem) (p : String) : Bool :=
  match fs.metadata p with
  | Except.ok _ => true
  | Except.error _ => false

/-- Spec-side predicate, from the spec: "(2) that entry is a regular file,
not a directory or special file". -/
def isRegularFile (fs : FileSystem) (p : String) : Bool :=
  match fs.metadata p with
  | Except.ok FileKind.regular => true
  | Except.ok FileKind.directory => false
  | Except.ok FileKind.other => false
  | Except.error _ => false

/-- Spec-side collector loop, written from the spec's algorithm: "for each
remaining argument, test two conditions ... Keep the argument (as its
original string, not a canonicalized path) only if both hold.  Preserve
relative order; no deduplication, no sorting." -/
def collectorSpecGo (fs : FileSystem) : List String → List String
  | [] => []
  | a :: rest =>
    if entryExists fs a && isRegularFile fs a then a :: collectorSpecGo fs rest
    else collectorSpecGo fs rest

/-- Spec-side collector, from the spec: "the raw argument vector, with the
zeroth element (executable path) always excluded regardless of its content",
then the order-preserving keep-if-both-hold loop. -/
def collectorSpec (fs : FileSystem) (argv : List String) : List String :=
  collectorSpecGo fs (argv.drop 1)

/-- An observable action of the bootstrap: collecting the file arguments,
registering the "frontend-ready" listener, the handler observing a delivered
signal, emitting a named event with a payload, or the process aborting on a
failed `.unwrap()`. -/
inductive Action
  | collect (files : List String)
  | registerListener
  | observeSignal (name : String)
  | emit (name : String) (payload : List String)
  | crash
deriving DecidableEq, Repr

/-- An event delivered by the host event loop: its name, whether the emit
channel would succeed at that moment, and the filesystem state at that
moment.  The handler in the source ignores the filesystem at delivery time
(the closure only emits the moved `files` list), so `fsNow` exists purely to
let us state that fact. -/
structure Event where
  name : String
  emitOk : Bool
  fsNow : FileSystem

/-- The trace produced by the registered listener closure over a sequence of
host events, from the source: `app_handle.listen("frontend-ready", move
|_event| { event_handle.emit("open-file", &files).unwrap(); })`.  The
listener is persistent (Tauri `listen`, not `listen_once`): every
"frontend-ready" delivery runs the handler.  A failed emit is `.unwrap()`ed,
which panics and aborts the process, truncating the trace. -/
def eventsTrace (files : List String) : List Event → List Action
  | [] => []
  | ev :: rest =>
    if ev.name = "frontend-ready" then
      if ev.emitOk then
        Action.observeSignal ev.name :: Action.emit "open-file" files ::
          eventsTrace files rest
      else [Action.observeSignal ev.name, Action.crash]
    else eventsTrace files rest

/-- The trace of one program run, from the source's setup closure: collect
the file arguments, and only if the list is non-empty register the
"frontend-ready" listener; then the host delivers `evs`. -/
def appTrace (fs : FileSystem) (argv : List String) (evs : List Event) :
    List Action :=
  let files := extract_file_args fs argv
  if files.isEmpty then [Action.collect files]
  else Action.collect files :: Action.registerListener :: eventsTrace files evs

/-- The emitted notifications of a trace, in order: name and payload pairs. -/
def emissions (t : List Action) : List (String × List String) :=
  t.filterMap fun a =>
    match a with
    | Action.emit n p => some (n, p)
    | _ => none

/-- Is this action a collection step? -/
def Action.isCollect : Action → Bool
  | Action.collect _ => true
  | _ => false

/-- Is this action the listener registration? -/
def Action.isRegister : Action → Bool
  | Action.registerListener => true
  | _ => false

/-- Is this action an emission? -/
def Action.isEmit : Action → Bool
  | Action.emit _ _ => true
  | _ => false

/-- Is this action the observation of a "frontend-ready" signal? -/
def Action.isReadySignal : Action → Bool
  | Action.observeSignal n => n = "frontend-ready"
  | _ => false

/-- Trace-order checker: every `target` action occurs strictly after some
earlier `trigger` action (given whether a trigger has already been seen). -/
def onlyAfter (trigger target : Action → Bool) : Bool → List Action → Bool
  | _, [] => true
  | seen, a :: rest =>
    (seen || !target a) && onlyAfter trigger target (seen || trigger a) rest

/-- The number of "frontend-ready" events in a delivered event sequence. -/
def readySignalCount (evs : List Event) : Nat :=
  (evs.filter fun ev => decide (ev.name = "frontend-ready")).length

/-- A filesystem on which every path is a regular file. -/
def fsAllFiles : FileSystem := ⟨fun _ => Except.ok FileKind.regular⟩

/-- A filesystem on which every metadata call fails. -/
def fsNoFiles : FileSystem := ⟨fun _ => Except.error "no such file"⟩

/-- A filesystem on which every metadata call is denied. -/
def fsDenied : FileSystem := ⟨fun _ => Except.error "permission denied"⟩

/-- A "frontend-ready" delivery on a healthy emit channel. -/
def readyEvent : Event := ⟨"frontend-ready", true, fsAllFiles⟩

/-- A "frontend-ready" delivery on which the emit call would fail. -/
def failingReadyEvent : Event := ⟨"frontend-ready", false, fsAllFiles⟩

/-- A "frontend-ready" delivery arriving after every collected file has been
deleted from the filesystem. -/
def readyEventAfterDelete : Event := ⟨"frontend-ready", true, fsNoFiles⟩

end MSH3JS

namespace MSH3JS

/-- The code-side and spec-side existence checks agree. -/
theorem pathExists_eq_entryExists (fs : FileSystem) (p : String) :
    pathExists fs p = entryExists fs p := rfl

/-- The code-side and spec-side regular-file checks agree. -/
theorem isFile_eq_isRegularFile (fs : FileSystem) (p : String) :
    isFile fs p = isRegularFile fs p := rfl

/-- The spec-side loop is the filter by the spec-side predicate. -/
theorem collectorSpecGo_eq_filter (fs : FileSystem) (l : List String) :
    collectorSpecGo fs l =
      l.filter fun a => entryExists fs a && isRegularFile fs a := by
  induction l with
  | nil => rfl
  | cons a rest ih =>
    simp only [collectorSpecGo, List.filter, ih]
    cases entryExists fs a && isRegularFile fs a <;> simp

/-- Claim C2: for every argument vector, the collector's output equals the
order-preserving filter of the arguments after the zeroth by the predicate
"a filesystem entry exists at that path and it is a regular file": the
source's `extract_file_args` coincides with the collector written from the
spec's algorithm (original strings, relative order preserved, no
deduplication, no sorting). -/
theorem extract_file_args_eq_collectorSpec (fs : FileSystem)
    (argv : List String) : extract_file_args fs argv = collectorSpec fs argv := by
  unfold extract_file_args collectorSpec
  rw [collectorSpecGo_eq_filter]
  simp only [pathExists_eq_entryExists, isFile_eq_isRegularFile]

/-- Claim C5: the zeroth (executable path) argument is never included in the
collector's output: the output does not depend on the zeroth argument at all,
and every output element is drawn (in order) from the remaining arguments. -/
theorem zeroth_arg_never_collected (fs : FileSystem) (a b : String)
    (rest : List String) :
    extract_file_args fs (a :: rest) = extract_file_args fs (b :: rest) ∧
      (extract_file_args fs (a :: rest)).Sublist rest := by
  refine ⟨rfl, ?_⟩
  unfold extract_file_args
  simp only [List.drop_succ_cons, List.drop_zero]
  exact List.filter_sublist rest

/-- Emissions skip a collection step. -/
theorem emissions_cons_collect (files : List String) (t : List Action) :
    emissions (Action.collect files :: t) = emissions t := rfl

/-- Emissions skip the listener registration. -/
theorem emissions_cons_register (t : List Action) :
    emissions (Action.registerListener :: t) = emissions t := rfl

/-- Emissions skip a signal observation. -/
theorem emissions_cons_observe (n : String) (t : List Action) :
    emissions (Action.observeSignal n :: t) = emissions t := rfl

/-- Emissions record an emit action. -/
theorem emissions_cons_emit (n : String) (p : List String) (t : List Action) :
    emissions (Action.emit n p :: t) = (n, p) :: emissions t := rfl

/-- Emissions skip the crash marker. -/
theorem emissions_cons_crash (t : List Action) :
    emissions (Action.crash :: t) = emissions t := rfl

/-- On a non-empty collected list the run trace is: collect, register the
listener, then the listener phase. -/
theorem appTrace_of_ne_nil (fs : FileSystem) (argv : List String)
    (evs : List Event) (h : extract_file_args fs argv ≠ []) :
    appTrace fs argv evs =
      Action.collect (extract_file_args fs argv) :: Action.registerListener ::
        eventsTrace (extract_file_args fs argv) evs := by
  unfold appTrace
  rw [if_neg]
  simpa using h

/-- On an empty collected list the run trace is just the collection step. -/
theorem appTrace_of_nil (fs : FileSystem) (argv : List String)
    (evs : List Event) (h : extract_file_args fs argv = []) :
    appTrace fs argv evs = [Action.collect []] := by
  unfold appTrace
  simp [h]

/-- Every emission of the listener phase is the "open-file" event carrying
exactly the captured list. -/
theorem mem_emissions_eventsTrace (files : List String) :
    ∀ (evs : List Event), ∀ e ∈ emissions (eventsTrace files evs),
      e = ("open-file", files) := by
  intro evs
  induction evs with
  | nil => intro e he; simp [eventsTrace, emissions] at he
  | cons ev rest ih =>
    intro e he
    by_cases hn : ev.name = "frontend-ready"
    · cases ho : ev.emitOk with
      | false =>
        rw [eventsTrace, if_pos hn, if_neg (by simp [ho])] at he
        simp [emissions] at he
      | true =>
        rw [eventsTrace, if_pos hn, if_pos (by simp [ho]),
          emissions_cons_observe, emissions_cons_emit] at he
        rcases List.mem_cons.mp he with h1 | h1
        · exact h1
        · exact ih e h1
    · rw [eventsTrace, if_neg hn] at he
      exact ih e he

/-- A "frontend-ready" delivery adds one to the signal count. -/
theorem readySignalCount_cons_ready (ev : Event) (rest : List Event)
    (hn : ev.name = "frontend-ready") :
    readySignalCount (ev :: rest) = readySignalCount rest + 1 := by
  unfold readySignalCount
  rw [List.filter_cons]
  simp [hn]

/-- Any other delivery leaves the signal count unchanged. -/
theorem readySignalCount_cons_other (ev : Event) (rest : List Event)
    (hn : ¬ ev.name = "frontend-ready") :
    readySignalCount (ev :: rest) = readySignalCount rest := by
  unfold readySignalCount
  rw [List.filter_cons]
  simp [hn]

/-- The listener phase emits at most one notification per delivered
"frontend-ready" signal. -/
theorem emissions_eventsTrace_length_le (files : List String) :
    ∀ evs : List Event,
      (emissions (eventsTrace files evs)).length ≤ readySignalCount evs := by
  intro evs
  induction evs with
  | nil => simp [eventsTrace, emissions, readySignalCount]
  | cons ev rest ih =>
    by_cases hn : ev.name = "frontend-ready"
    · cases ho : ev.emitOk with
      | false =>
        rw [eventsTrace, if_pos hn, if_neg (by simp [ho])]
        simp [emissions, readySignalCount]
      | true =>
        rw [eventsTrace, if_pos hn, if_pos (by simp [ho]),
          emissions_cons_observe, emissions_cons_emit,
          readySignalCount_cons_ready ev rest hn, List.length_cons]
        exact Nat.succ_le_succ ih
    · rw [eventsTrace, if_neg hn, readySignalCount_cons_other ev rest hn]
      exact ih

/-- When every emit call succeeds, the listener phase emits exactly one
notification per delivered "frontend-ready" signal and never crashes. -/
theorem eventsTrace_all_ok (files : List String) :
    ∀ evs : List Event, (∀ ev ∈ evs, ev.emitOk = true) →
      (emissions (eventsTrace files evs)).length = readySignalCount evs ∧
        Action.crash ∉ eventsTrace files evs := by
  intro evs
  induction evs with
  | nil => intro hok; simp [eventsTrace, emissions, readySignalCount]
  | cons ev rest ih =>
    intro hok
    have hev : ev.emitOk = true := hok ev (List.mem_cons_self ev rest)
    have hrest : ∀ e ∈ rest, e.emitOk = true :=
      fun e he => hok e (List.mem_cons_of_mem ev he)
    obtain ⟨ihlen, ihmem⟩ := ih hrest
    by_cases hn : ev.name = "frontend-ready"
    · rw [eventsTrace, if_pos hn, if_pos (by simp [hev]),
        emissions_cons_observe, emissions_cons_emit]
      constructor
      · rw [readySignalCount_cons_ready ev rest hn, List.length_cons, ihlen]
      · intro hmem
        rcases List.mem_cons.mp hmem with h1 | h1
        · exact Action.noConfusion h1
        · rcases List.mem_cons.mp h1 with h2 | h2
          · exact Action.noConfusion h2
          · exact ihmem h2
    · rw [eventsTrace, if_neg hn]
      constructor
      · rw [readySignalCount_cons_other ev rest hn]
        exact ihlen
      · exact ihmem

/-- Once a trigger has been seen, the order checker accepts any trace. -/
theorem onlyAfter_of_seen (trigger target : Action → Bool) (l : List Action) :
    onlyAfter trigger target true l = true := by
  induction l with
  | nil => rfl
  | cons a rest ih => simp [onlyAfter, ih]

/-- In the listener phase, every emission is strictly preceded by the
observation of a "frontend-ready" signal. -/
theorem onlyAfter_ready_emit_eventsTrace (files : List String) :
    ∀ (evs : List Event) (seen : Bool),
      onlyAfter Action.isReadySignal Action.isEmit seen
        (eventsTrace files evs) = true := by
  intro evs
  induction evs with
  | nil => intro seen; rfl
  | cons ev rest ih =>
    intro seen
    by_cases hn : ev.name = "frontend-ready"
    · cases ho : ev.emitOk with
      | false =>
        rw [eventsTrace, if_pos hn, if_neg (by simp [ho])]
        simp [onlyAfter, Action.isReadySignal, Action.isEmit, hn]
      | true =>
        rw [eventsTrace, if_pos hn, if_pos (by simp [ho])]
        simp [onlyAfter, Action.isReadySignal, Action.isEmit, hn, ih]
    · rw [eventsTrace, if_neg hn]
      exact ih seen

/-- The listener phase depends only on the name and emit-channel health of
each delivered event, never on the filesystem state at delivery time. -/
theorem eventsTrace_congr (files : List String) :
    ∀ (evs1 evs2 : List Event),
      evs1.map (fun ev => (ev.name, ev.emitOk)) =
        evs2.map (fun ev => (ev.name, ev.emitOk)) →
      eventsTrace files evs1 = eventsTrace files evs2 := by
  intro evs1
  induction evs1 with
  | nil =>
    intro evs2 h
    cases evs2 with
    | nil => rfl
    | cons b bs => simp at h
  | cons ev rest ih =>
    intro evs2 h
    cases evs2 with
    | nil => simp at h
    | cons ev2 rest2 =>
      simp only [List.map_cons, List.cons.injEq, Prod.mk.injEq] at h
      obtain ⟨⟨hname, hok⟩, hrest⟩ := h
      rw [eventsTrace, eventsTrace, hname, hok, ih rest2 hrest]

/-- Claim C1: for every non-empty collected file list, every "open-file"
notification of the run is emitted only after a "frontend-ready" signal has
been observed, and its payload is exactly the collected list: same strings,
same order, same length, no transformation. -/
theorem open_file_only_after_ready (fs : FileSystem) (argv : List String)
    (evs : List Event) (h : extract_file_args fs argv ≠ []) :
    (∀ e ∈ emissions (appTrace fs argv evs),
        e.1 = "open-file" ∧ e.2 = extract_file_args fs argv) ∧
      onlyAfter Action.isReadySignal Action.isEmit false
        (appTrace fs argv evs) = true := by
  rw [appTrace_of_ne_nil fs argv evs h]
  constructor
  · intro e he
    rw [emissions_cons_collect, emissions_cons_register] at he
    have he2 := mem_emissions_eventsTrace (extract_file_args fs argv) evs e he
    rw [he2]
    exact ⟨rfl, rfl⟩
  · simp only [onlyAfter, Action.isReadySignal, Action.isEmit, Bool.not_false,
      Bool.or_false, Bool.true_and]
    exact onlyAfter_ready_emit_eventsTrace (extract_file_args fs argv) evs false

/-- Claim C1 witness: one valid file argument and one ready signal. -/
theorem open_file_only_after_ready_witness :
    extract_file_args fsAllFiles ["app", "model.msh"] ≠ [] ∧
      ((∀ e ∈ emissions (appTrace fsAllFiles ["app", "model.msh"] [readyEvent]),
          e.1 = "open-file" ∧
            e.2 = extract_file_args fsAllFiles ["app", "model.msh"]) ∧
        onlyAfter Action.isReadySignal Action.isEmit false
          (appTrace fsAllFiles ["app", "model.msh"] [readyEvent]) = true) :=
  ⟨by decide,
    open_file_only_after_ready fsAllFiles ["app", "model.msh"] [readyEvent]
      (by decide)⟩

/-- Claim C3 counterexample: with one collected file and two delivered
"frontend-ready" signals, the "open-file" notification is emitted twice, so
it is not delivered at most once over the whole program run. -/
theorem open_file_twice_counterexample :
    ¬ (emissions (appTrace fsAllFiles ["app", "model.msh"]
        [readyEvent, readyEvent])).length ≤ 1 := by
  decide

/-- Claim C3 (amended): the "open-file" notification is delivered at most
once per delivered "frontend-ready" signal; in particular it is delivered at
most once over the whole run provided the "frontend-ready" signal is
delivered at most once. -/
theorem open_file_at_most_once_per_ready (fs : FileSystem)
    (argv : List String) (evs : List Event)
    (h : readySignalCount evs ≤ 1) :
    (emissions (appTrace fs argv evs)).length ≤ 1 := by
  by_cases hf : extract_file_args fs argv = []
  · rw [appTrace_of_nil fs argv evs hf]
    simp [emissions]
  · rw [appTrace_of_ne_nil fs argv evs hf, emissions_cons_collect,
      emissions_cons_register]
    exact le_trans (emissions_eventsTrace_length_le _ evs) h

/-- Claim C3 (amended) witness: a single ready signal yields at most one
notification. -/
theorem open_file_at_most_once_per_ready_witness :
    readySignalCount [readyEvent] ≤ 1 ∧
      (emissions (appTrace fsAllFiles ["app", "model.msh"]
        [readyEvent])).length ≤ 1 :=
  ⟨by decide,
    open_file_at_most_once_per_ready fsAllFiles ["app", "model.msh"]
      [readyEvent] (by decide)⟩

/-- Claim C4: when the collected file list is empty, no "frontend-ready"
listener is ever registered and no "open-file" notification is ever emitted,
no matter how many signals the host delivers. -/
theorem no_files_no_listener_no_emission (fs : FileSystem)
    (argv : List String) (evs : List Event)
    (h : extract_file_args fs argv = []) :
    Action.registerListener ∉ appTrace fs argv evs ∧
      emissions (appTrace fs argv evs) = [] := by
  rw [appTrace_of_nil fs argv evs h]
  refine ⟨?_, rfl⟩
  intro hmem
  rcases List.mem_singleton.mp hmem with h1
  exact Action.noConfusion h1

/-- Claim C4 witness: no valid file argument and two ready signals. -/
theorem no_files_no_listener_no_emission_witness :
    extract_file_args fsNoFiles ["app", "model.msh"] = [] ∧
      (Action.registerListener ∉
          appTrace fsNoFiles ["app", "model.msh"] [readyEvent, readyEvent] ∧
        emissions (appTrace fsNoFiles ["app", "model.msh"]
          [readyEvent, readyEvent]) = []) :=
  ⟨by decide,
    no_files_no_listener_no_emission fsNoFiles ["app", "model.msh"]
      [readyEvent, readyEvent] (by decide)⟩

/-- Claim C6: any argument whose metadata call fails (missing entry,
permission denied, any I/O error) is silently excluded from the collector's
output; the collector itself is a total function and never surfaces an
error. -/
theorem metadata_error_excluded (fs : FileSystem) (argv : List String)
    (p : String) (msg : String) (h : fs.metadata p = Except.error msg) :
    p ∉ extract_file_args fs argv := by
  intro hm
  unfold extract_file_args at hm
  have hp := List.of_mem_filter hm
  rw [Bool.and_eq_true] at hp
  have hex := hp.1
  unfold pathExists at hex
  rw [h] at hex
  exact Bool.noConfusion hex

/-- Claim C6 witness: a permission-denied path is excluded, not an error. -/
theorem metadata_error_excluded_witness :
    fsDenied.metadata "secret.msh" = Except.error "permission denied" ∧
      "secret.msh" ∉ extract_file_args fsDenied ["app", "secret.msh"] :=
  ⟨rfl,
    metadata_error_excluded fsDenied ["app", "secret.msh"] "secret.msh"
      "permission denied" rfl⟩

/-- Claim C7: when the emit call for a delivered "frontend-ready" signal
fails, the `.unwrap()` aborts the process: the signal is observed, no
notification is emitted (no silent drop: the abort is the surfaced outcome),
and no later event is ever processed (no retry). -/
theorem emit_failure_aborts (files : List String) (ev : Event)
    (rest : List Event) (hn : ev.name = "frontend-ready")
    (hf : ev.emitOk = false) :
    eventsTrace files (ev :: rest) =
      [Action.observeSignal "frontend-ready", Action.crash] := by
  rw [eventsTrace, if_pos hn, if_neg (by simp [hf]), hn]

/-- Claim C7 witness: a failing emit on the first ready signal aborts. -/
theorem emit_failure_aborts_witness :
    failingReadyEvent.name = "frontend-ready" ∧
      failingReadyEvent.emitOk = false ∧
      eventsTrace ["model.msh"] [failingReadyEvent, readyEvent] =
        [Action.observeSignal "frontend-ready", Action.crash] :=
  ⟨rfl, rfl,
    emit_failure_aborts ["model.msh"] failingReadyEvent [readyEvent] rfl rfl⟩

/-- Claim C8: in every run, file collection is the first action and completes
before the listener registration, every emission happens after the listener
was registered, and every emission happens after a "frontend-ready" signal
was observed. -/
theorem collection_then_registration_then_emission (fs : FileSystem)
    (argv : List String) (evs : List Event) :
    (appTrace fs argv evs).head? =
        some (Action.collect (extract_file_args fs argv)) ∧
      onlyAfter Action.isCollect Action.isRegister false
        (appTrace fs argv evs) = true ∧
      onlyAfter Action.isRegister Action.isEmit false
        (appTrace fs argv evs) = true ∧
      onlyAfter Action.isReadySignal Action.isEmit false
        (appTrace fs argv evs) = true := by
  by_cases hf : extract_file_args fs argv = []
  · rw [appTrace_of_nil fs argv evs hf, hf]
    exact ⟨rfl, rfl, rfl, rfl⟩
  · rw [appTrace_of_ne_nil fs argv evs hf]
    refine ⟨rfl, ?_, ?_, ?_⟩
    · simp only [onlyAfter, Action.isCollect, Action.isRegister,
        Action.isEmit, Bool.not_false, Bool.not_true, Bool.or_false,
        Bool.or_true, Bool.true_and, Bool.false_or]
      exact onlyAfter_of_seen Action.isCollect Action.isRegister
        (eventsTrace (extract_file_args fs argv) evs)
    · simp only [onlyAfter, Action.isRegister, Action.isEmit, Bool.not_false,
        Bool.or_false, Bool.or_true, Bool.true_and, Bool.false_or]
      exact onlyAfter_of_seen Action.isRegister Action.isEmit
        (eventsTrace (extract_file_args fs argv) evs)
    · simp only [onlyAfter, Action.isReadySignal, Action.isEmit,
        Bool.not_false, Bool.or_false, Bool.true_and]
      exact onlyAfter_ready_emit_eventsTrace (extract_file_args fs argv) evs
        false

/-- Claim C9: the collected list is captured once and never re-validated:
the whole run trace is independent of the filesystem state at each delivery
moment, and every emitted payload is exactly the list computed at collection
time, even if every collected file has since been deleted. -/
theorem payload_fixed_at_collection (fs : FileSystem) (argv : List String)
    (evs1 evs2 : List Event)
    (h : evs1.map (fun ev => (ev.name, ev.emitOk)) =
        evs2.map (fun ev => (ev.name, ev.emitOk))) :
    appTrace fs argv evs1 = appTrace fs argv evs2 ∧
      ∀ e ∈ emissions (appTrace fs argv evs1),
        e.2 = extract_file_args fs argv := by
  constructor
  · by_cases hf : extract_file_args fs argv = []
    · rw [appTrace_of_nil fs argv evs1 hf, appTrace_of_nil fs argv evs2 hf]
    · rw [appTrace_of_ne_nil fs argv evs1 hf,
        appTrace_of_ne_nil fs argv evs2 hf,
        eventsTrace_congr (extract_file_args fs argv) evs1 evs2 h]
  · intro e he
    by_cases hf : extract_file_args fs argv = []
    · rw [appTrace_of_nil fs argv evs1 hf] at he
      simp [emissions] at he
    · rw [appTrace_of_ne_nil fs argv evs1 hf, emissions_cons_collect,
        emissions_cons_register] at he
      rw [mem_emissions_eventsTrace (extract_file_args fs argv) evs1 e he]

/-- Claim C9 witness: the file is deleted before the ready signal arrives,
yet the trace is unchanged and the stale path is still the payload. -/
theorem payload_fixed_at_collection_witness :
    ([readyEvent].map (fun ev => (ev.name, ev.emitOk)) =
        [readyEventAfterDelete].map (fun ev => (ev.name, ev.emitOk))) ∧
      (appTrace fsAllFiles ["app", "model.msh"] [readyEvent] =
          appTrace fsAllFiles ["app", "model.msh"] [readyEventAfterDelete] ∧
        ∀ e ∈ emissions (appTrace fsAllFiles ["app", "model.msh"]
            [readyEvent]),
          e.2 = extract_file_args fsAllFiles ["app", "model.msh"]) :=
  ⟨rfl,
    payload_fixed_at_collection fsAllFiles ["app", "model.msh"] [readyEvent]
      [readyEventAfterDelete] rfl⟩

/-- Claim C10: with a non-empty collected list, the listener is persistent:
when the "frontend-ready" signal is delivered n times and every emit call
succeeds, the handler emits the "open-file" notification exactly n times,
each time with the same collected list, and the process never crashes. -/
theorem ready_signal_replays_emission (fs : FileSystem) (argv : List String)
    (evs : List Event) (hne : extract_file_args fs argv ≠ [])
    (hok : ∀ ev ∈ evs, ev.emitOk = true) :
    (emissions (appTrace fs argv evs)).length = readySignalCount evs ∧
      (∀ e ∈ emissions (appTrace fs argv evs),
        e = ("open-file", extract_file_args fs argv)) ∧
      Action.crash ∉ appTrace fs argv evs := by
  rw [appTrace_of_ne_nil fs argv evs hne]
  obtain ⟨hlen, hcrash⟩ := eventsTrace_all_ok (extract_file_args fs argv) evs hok
  refine ⟨?_, ?_, ?_⟩
  · rw [emissions_cons_collect, emissions_cons_register]
    exact hlen
  · intro e he
    rw [emissions_cons_collect, emissions_cons_register] at he
    exact mem_emissions_eventsTrace (extract_file_args fs argv) evs e he
  · intro hmem
    rcases List.mem_cons.mp hmem with h1 | h1
    · exact Action.noConfusion h1
    · rcases List.mem_cons.mp h1 with h2 | h2
      · exact Action.noConfusion h2
      · exact hcrash h2

/-- Claim C10 witness: three ready signals yield three notifications. -/
theorem ready_signal_replays_emission_witness :
    extract_file_args fsAllFiles ["app", "model.msh"] ≠ [] ∧
      (∀ ev ∈ [readyEvent, readyEvent, readyEvent], ev.emitOk = true) ∧
      ((emissions (appTrace fsAllFiles ["app", "model.msh"]
            [readyEvent, readyEvent, readyEvent])).length =
          readySignalCount [readyEvent, readyEvent, readyEvent] ∧
        (∀ e ∈ emissions (appTrace fsAllFiles ["app", "model.msh"]
            [readyEvent, readyEvent, readyEvent]),
          e = ("open-file", extract_file_args fsAllFiles ["app", "model.msh"])) ∧
        Action.crash ∉ appTrace fsAllFiles ["app", "model.msh"]
          [readyEvent, readyEvent, readyEvent]) :=
  ⟨by decide, by decide,
    ready_signal_replays_emission fsAllFiles ["app", "model.msh"]
      [readyEvent, readyEvent, readyEvent] (by decide) (by decide)⟩

end MSH3JS
